import Mathlib

/-!
A shallow embedding of the jlox-rs tree-walking Lox interpreter
(`src/jlox/src/*.rs`), covering the scanner, the recursive-descent parser,
the resolver and the tree-walking interpreter, together with proofs about
the behaviour of the embedded code.

Modelling conventions:

* Rust `f64` number payloads are modelled by `ℚ`.  None of the properties
  proved below depends on floating-point rounding, formatting, or NaN
  behaviour; they only inspect the *variant tags* of values and the shape
  of control flow.
* Rust `Rc<RefCell<Environment>>` frames and `Rc<LoxInstance>` handles are
  mutable shared state; they are modelled by indices into an explicit
  store (`Store`), threaded through evaluation.  A frame is allocated in
  the store at the point where the Rust code creates the `Environment`
  value.
* Rust panics (`unreachable!()`, `usize` subtraction overflow in a debug
  build) abort the process; they are modelled by the distinguished error
  `LoxError.abort`, which is not a `LoxError` value in the source but the
  absence of a normal result.  Fuel exhaustion of the fuelled evaluators
  is mapped to the same constructor; every theorem below either supplies
  ample fuel or holds for all fuel values.
* `HashMap<String, _>` is modelled by an association list with
  replace-on-insert semantics (`assocSet`) and first-match lookup
  (`assocGet`); carried-over key order is irrelevant to every lookup.
* The repository keys the resolver's side table on AST node *identity*
  (`Rc` pointer equality).  The interpreter below receives that table as
  an abstract read-only map `locals : Expr → Option Nat`; the programs
  evaluated in the theorems use the empty table, for which identity
  versus structural keying is immaterial.
-/

/-- Token kinds, from `token.rs` (`enum TokenType`). -/
inductive TokenType where
  | leftBracket | rightBracket | leftBrace | rightBrace
  | comma | dot | plus | minus | star | semicolon | eof
  | bangEqual | bang | equalEqual | assign
  | lessEqual | less | greaterEqual | greater | slash
  | string | number | identifier
  | andK | classK | elseK | falseK | forK | funK | ifK | nilK | orK
  | printK | returnK | superK | thisK | trueK | varK | whileK | breakK
  deriving DecidableEq, Repr

mutual

/-- Runtime values, from `token.rs` (`enum Literal`) extended with the
`NativeFunction`, `Class` and `Instance` variants that `interpreter.rs`,
`lox_class.rs` and `lox_instance.rs` pattern-match on (the checked-in
`token.rs` predates the class chapters).  `Instance` holds an index into
the store's instance table (`Rc<LoxInstance>` identity). -/
inductive Literal where
  | number (n : ℚ)
  | string (s : String)
  | boolean (b : Bool)
  | function (f : FunctionData)
  | nativeFunction
  | classV (c : ClassData)
  | instanceV (id : Nat)
  | nil

/-- The payload of a `Literal.function`, from `lox_function.rs`
(`struct LoxFunction`): the captured closure frame, the declaration's
name, parameters and body, and the initialiser flag. -/
inductive FunctionData where
  | mk (closure : Nat) (name : Token) (params : List Token)
       (body : List Stmt) (isInitialiser : Bool)

/-- A class descriptor, from `lox_class.rs` (`struct LoxClass`).
Method tables map names to `Literal` values (function literals). -/
inductive ClassData where
  | mk (superclass : Option ClassData) (name : String)
       (methods : List (String × Literal))

/-- A scanned token, from `token.rs` (`struct Token`). -/
inductive Token where
  | mk (tokenType : TokenType) (lexeme : String)
       (literal : Option Literal) (line : Nat)

/-- Expressions, from `expr.rs` (`enum Expr`) extended with the `Get`,
`Set`, `Super` and `This` variants built by `parser.rs` and consumed by
`interpreter.rs` (the checked-in `expr.rs` predates the class chapters;
the field shapes are exactly those used at the construction sites in
`parser.rs`). -/
inductive Expr where
  | assign (name : Token) (value : Expr)
  | binary (left : Expr) (operator : Token) (right : Expr)
  | call (callee : Expr) (bracket : Token) (arguments : List Expr)
  | get (object : Expr) (name : Token)
  | grouping (expression : Expr)
  | literal (value : Option Literal)
  | logical (left : Expr) (operator : Token) (right : Expr)
  | set (object : Expr) (name : Token) (value : Expr)
  | superE (keyword : Token) (method : Token)
  | thisE (keyword : Token)
  | unary (operator : Token) (right : Expr)
  | variable (name : Token)

/-- Statements, from `stmt.rs` (`enum Stmt`) extended with the `Class`
variant built by `parser.rs` (`ClassStmt { name, methods, superclass }`).
There is no `For` variant: `for` loops are desugared by the parser. -/
inductive Stmt where
  | block (statements : List Stmt)
  | breakS (token : Token)
  | classS (name : Token) (superclass : Option Expr) (methods : List Stmt)
  | expression (expr : Expr)
  | function (name : Token) (params : List Token) (body : List Stmt)
  | ifS (condition : Expr) (thenBranch : Stmt) (elseBranch : Option Stmt)
  | print (expr : Expr)
  | returnS (keyword : Token) (value : Option Expr)
  | varS (name : Token) (initialiser : Option Expr)
  | whileS (condition : Expr) (body : Stmt)

end

namespace Token

def tokenType : Token → TokenType
  | .mk t _ _ _ => t

def lexeme : Token → String
  | .mk _ l _ _ => l

def literal : Token → Option Literal
  | .mk _ _ l _ => l

def line : Token → Nat
  | .mk _ _ _ n => n

/-- `Token::is_type` from `token.rs`. -/
def isType (t : Token) (tt : TokenType) : Bool :=
  t.tokenType = tt

/-- `Token::is_types` from `token.rs`. -/
def isTypes (t : Token) (tts : List TokenType) : Bool :=
  tts.any fun tt => t.tokenType = tt

/-- `Token::new_eof` from `token.rs`. -/
def newEof (line : Nat) : Token :=
  .mk .eof "" none line

end Token

namespace FunctionData

def closure : FunctionData → Nat
  | .mk c _ _ _ _ => c

def name : FunctionData → Token
  | .mk _ n _ _ _ => n

def params : FunctionData → List Token
  | .mk _ _ p _ _ => p

def body : FunctionData → List Stmt
  | .mk _ _ _ b _ => b

def isInitialiser : FunctionData → Bool
  | .mk _ _ _ _ i => i

def withBody (f : FunctionData) (b : List Stmt) : FunctionData :=
  .mk f.closure f.name f.params b f.isInitialiser

end FunctionData

namespace ClassData

def superclass : ClassData → Option ClassData
  | .mk s _ _ => s

def name : ClassData → String
  | .mk _ n _ => n

def methods : ClassData → List (String × Literal)
  | .mk _ _ m => m

end ClassData

/-- Errors and control signals, from `error.rs` (`enum LoxErrorType`),
plus `abort` modelling a Rust panic (`unreachable!()` / debug-build
`usize` overflow), which the source cannot represent as a `LoxError`. -/
inductive LoxError where
  | breakSignal
  | generalErr (line : Nat) (message : String)
  | parseErr (token : Token) (message : String)
  | returnSignal (value : Literal)
  | runtimeErr (token : Token) (message : String)
  | typeErr
  | abort

namespace LoxError

/-- `LoxError::is_break` from `error.rs`. -/
def isBreak : LoxError → Bool
  | .breakSignal => true
  | _ => false

/-- `LoxError::new_parse_failure` from `error.rs`. -/
def newParseFailure : LoxError :=
  .parseErr (Token.newEof 0) ""

/-- `LoxError::get_return_value` from `error.rs`. -/
def getReturnValue : LoxError → Except LoxError Literal
  | .returnSignal v => .ok v
  | e => .error e

end LoxError

/-- First-match association-list lookup, modelling `HashMap::get`. -/
def assocGet {α : Type} (l : List (String × α)) (k : String) : Option α :=
  match l with
  | [] => none
  | (k', v) :: rest => if k' = k then some v else assocGet rest k

/-- Replace-or-append insertion, modelling `HashMap::insert`. -/
def assocSet {α : Type} (l : List (String × α)) (k : String) (v : α) :
    List (String × α) :=
  match l with
  | [] => [(k, v)]
  | (k', v') :: rest =>
      if k' = k then (k, v) :: rest else (k', v') :: assocSet rest k v

/-- `LoxClass::find_method` from `lox_class.rs`: the method defined here
or, on miss, the one resolved through the superclass recursively. -/
def findMethod (c : ClassData) (name : String) : Option Literal :=
  match assocGet c.methods name with
  | some m => some m
  | none =>
      match c with
      | .mk (some s) _ _ => findMethod s name
      | .mk none _ _ => none

/-! ## Environments and store (`environment.rs`) -/

/-- One environment frame, from `environment.rs` (`struct Environment`):
a name-to-value table plus an optional enclosing frame.  The Rust
`Rc<RefCell<Environment>>` handle is modelled by the frame's index in the
store. -/
structure EnvFrame where
  values : List (String × Literal)
  enclosing : Option Nat

/-- The instance state behind an `Rc<LoxInstance>` handle, from
`lox_instance.rs`: the class and the mutable field table. -/
structure InstanceData where
  cls : ClassData
  fields : List (String × Literal)

/-- The heap of shared mutable state: every `Rc<RefCell<Environment>>`
frame and every `Rc<LoxInstance>` allocated so far, addressed by index. -/
structure Store where
  envs : List EnvFrame
  insts : List InstanceData

namespace Store

/-- Allocate a frame (the point where Rust creates an `Environment`). -/
def pushEnv (s : Store) (f : EnvFrame) : Store :=
  { s with envs := s.envs ++ [f] }

def pushInst (s : Store) (i : InstanceData) : Store :=
  { s with insts := s.insts ++ [i] }

def getEnv (s : Store) (id : Nat) : Option EnvFrame :=
  s.envs.get? id

def getInst (s : Store) (id : Nat) : Option InstanceData :=
  s.insts.get? id

def setEnv (s : Store) (id : Nat) (f : EnvFrame) : Store :=
  { s with envs := s.envs.set id f }

def setInst (s : Store) (id : Nat) (i : InstanceData) : Store :=
  { s with insts := s.insts.set id i }

end Store

/-- `Environment::define` from `environment.rs`: write into the named
frame's innermost table unconditionally. -/
def envDefine (s : Store) (envId : Nat) (name : String) (v : Literal) :
    Store :=
  match s.getEnv envId with
  | some f => s.setEnv envId { f with values := assocSet f.values name v }
  | none => s

/-- `Environment::get` from `environment.rs`: look up in this frame, walk
the `enclosing` chain on miss, fail with "Undefined variable" at the
root.  Fuelled because the chain is a store walk; a frame's `enclosing`
index always points at an earlier allocation, so
`s.envs.length + 1` fuel never runs out on stores built by this
development. -/
def envGetFuel (s : Store) : Nat → Nat → Token → Except LoxError Literal
  | 0, _, _ => .error .abort
  | n + 1, envId, name =>
      match s.getEnv envId with
      | none => .error .abort
      | some f =>
          match assocGet f.values name.lexeme with
          | some v => .ok v
          | none =>
              match f.enclosing with
              | some e => envGetFuel s n e name
              | none =>
                  .error (.runtimeErr name
                    ("Undefined variable '" ++ name.lexeme ++ "'."))

def envGet (s : Store) (envId : Nat) (name : Token) :
    Except LoxError Literal :=
  envGetFuel s (s.envs.length + 1) envId name

/-- `Environment::assign` from `environment.rs`: walk the chain for an
existing binding and overwrite it; "Undefined variable" if absent at
every level. -/
def envAssignFuel (s : Store) :
    Nat → Nat → Token → Literal → Except LoxError Store
  | 0, _, _, _ => .error .abort
  | n + 1, envId, name, v =>
      match s.getEnv envId with
      | none => .error .abort
      | some f =>
          if (assocGet f.values name.lexeme).isSome then
            .ok (s.setEnv envId
              { f with values := assocSet f.values name.lexeme v })
          else
            match f.enclosing with
            | some e => envAssignFuel s n e name v
            | none =>
                .error (.runtimeErr name
                  ("Undefined variable '" ++ name.lexeme ++ "'."))

def envAssign (s : Store) (envId : Nat) (name : Token) (v : Literal) :
    Except LoxError Store :=
  envAssignFuel s (s.envs.length + 1) envId name v

/-- `Environment::get_at` from `environment.rs`.  The source checks the
frame's own table only when `distance == 0`; when the name is absent
there it still evaluates `distance - 1`, a `usize` underflow (a panic in
a debug build), and when the chain ends early it hits `unreachable!()` —
both are `abort` here.  The resolver is trusted to make those paths
unreachable. -/
def envGetAt (s : Store) (envId : Nat) (distance : Nat) (name : String) :
    Except LoxError Literal :=
  match distance with
  | 0 =>
      match s.getEnv envId with
      | none => .error .abort
      | some f =>
          match assocGet f.values name with
          | some v => .ok v
          | none => .error .abort
  | d + 1 =>
      match s.getEnv envId with
      | none => .error .abort
      | some f =>
          match f.enclosing with
          | some e => envGetAt s e d name
          | none => .error .abort

/-- `Environment::assign_at` from `environment.rs`: at distance 0 insert
unconditionally; otherwise descend, `unreachable!()` when the chain ends
early. -/
def envAssignAt (s : Store) (envId : Nat) (distance : Nat) (name : Token)
    (v : Literal) : Except LoxError Store :=
  match distance with
  | 0 =>
      match s.getEnv envId with
      | none => .error .abort
      | some f =>
          .ok (s.setEnv envId
            { f with values := assocSet f.values name.lexeme v })
  | d + 1 =>
      match s.getEnv envId with
      | none => .error .abort
      | some f =>
          match f.enclosing with
          | some e => envAssignAt s e d name v
          | none => .error .abort

/-! ## Interpreter: expression-level helpers (`interpreter.rs`) -/

/-- `Interpreter::is_truthy` from `interpreter.rs`. -/
def isTruthy : Literal → Bool
  | .nil => false
  | .boolean false => false
  | _ => true

/-- `Interpreter::internal_error` from `interpreter.rs`. -/
def internalError (operator : Token) : LoxError :=
  .runtimeErr operator "INTERPRETER INTERNAL ERROR."

/-- `Interpreter::number_error` from `interpreter.rs`. -/
def numberError (operator : Token) : LoxError :=
  .runtimeErr operator "Operand must be a number."

/-- `Interpreter::numbers_error` from `interpreter.rs`. -/
def numbersError (operator : Token) : LoxError :=
  .runtimeErr operator "Operands must be numbers."

/-- `Interpreter::numbers_or_strings_error` from `interpreter.rs`. -/
def numbersOrStringsError (operator : Token) : LoxError :=
  .runtimeErr operator "Operands must be two numbers or two strings."

/-- Lox number rendering used by string/number `+` coercion
(`format!("{left}{right}")` on an `f64` operand).  The properties proved
below never inspect the rendered digits, only the value's variant. -/
def numToString (q : ℚ) : String :=
  toString q

/-- The operand dispatch of `Interpreter::visit_binary_expr`
(`interpreter.rs` lines 125–197), applied after both operands have been
evaluated.  Each `if let` chain of the source is one group below, in
source order: (Number, Number), (String, String), (String, Number),
(Number, String), (Boolean, Boolean), (Nil, Nil), and the final
catch-all. -/
def binaryDispatch (operator : Token) (left right : Literal) :
    Except LoxError Literal :=
  match left, right with
  | .number l, .number r =>
      match operator.tokenType with
      | .plus => .ok (.number (l + r))
      | .minus => .ok (.number (l - r))
      | .star => .ok (.number (l * r))
      | .slash => .ok (.number (l / r))
      | .greater => .ok (.boolean (decide (l > r)))
      | .greaterEqual => .ok (.boolean (decide (l ≥ r)))
      | .less => .ok (.boolean (decide (l < r)))
      | .lessEqual => .ok (.boolean (decide (l ≤ r)))
      | .bangEqual => .ok (.boolean (decide (l ≠ r)))
      | .equalEqual => .ok (.boolean (decide (l = r)))
      | _ => .error (internalError operator)
  | .string l, .string r =>
      match operator.tokenType with
      | .plus => .ok (.string (l ++ r))
      | .bangEqual => .ok (.boolean (decide (l ≠ r)))
      | .equalEqual => .ok (.boolean (decide (l = r)))
      | _ => .error (numbersError operator)
  | .string l, .number r =>
      match operator.tokenType with
      | .plus => .ok (.string (l ++ numToString r))
      | .bangEqual => .ok (.boolean true)
      | .equalEqual => .ok (.boolean false)
      | _ => .error (numbersError operator)
  | .number l, .string r =>
      match operator.tokenType with
      | .plus => .ok (.string (numToString l ++ r))
      | .bangEqual => .ok (.boolean true)
      | .equalEqual => .ok (.boolean false)
      | _ => .error (numbersError operator)
  | .boolean l, .boolean r =>
      match operator.tokenType with
      | .bangEqual => .ok (.boolean (l != r))
      | .equalEqual => .ok (.boolean (l == r))
      | .plus => .error (numbersOrStringsError operator)
      | _ => .error (numbersError operator)
  | .nil, .nil =>
      match operator.tokenType with
      | .bangEqual => .ok (.boolean false)
      | .equalEqual => .ok (.boolean true)
      | .plus => .error (numbersOrStringsError operator)
      | _ => .error (numbersError operator)
  | _, _ =>
      match operator.tokenType with
      | .bangEqual => .ok (.boolean true)
      | .equalEqual => .ok (.boolean false)
      | .plus => .error (numbersOrStringsError operator)
      | _ => .error (numbersError operator)

/-! ## Instances and method binding (`lox_instance.rs`, `lox_function.rs`) -/

/-- `LoxInstance::get` from `lox_instance.rs` (lines 19–32): check the
field table first; on miss ask the class for a method and return it
*as stored* (`Ok(m.clone())` — note: not bound to the instance); else
fail with "Undefined property". -/
def instanceGet (s : Store) (instId : Nat) (name : Token) :
    Except LoxError Literal :=
  match s.getInst instId with
  | none => .error .abort
  | some i =>
      match assocGet i.fields name.lexeme with
      | some f => .ok f
      | none =>
          match findMethod i.cls name.lexeme with
          | some m => .ok m
          | none =>
              .error (.runtimeErr name
                ("Undefined property '" ++ name.lexeme ++ "'."))

/-- `LoxInstance::set` from `lox_instance.rs`: always writes a field. -/
def instanceSet (s : Store) (instId : Nat) (name : Token) (v : Literal) :
    Store :=
  match s.getInst instId with
  | some i =>
      s.setInst instId { i with fields := assocSet i.fields name.lexeme v }
  | none => s

/-- `LoxFunction::bind` from `lox_function.rs` (lines 31–44): a new
function whose closure is a fresh child of the original closure with
`this` mapped to the instance. -/
def bindFunction (s : Store) (f : FunctionData) (inst : Literal) :
    Store × FunctionData :=
  let newId := s.envs.length
  let s := s.pushEnv { values := [("this", inst)], enclosing := some f.closure }
  (s, .mk newId f.name f.params f.body f.isInitialiser)

/-- Build a class's method table, from the loop in
`Interpreter::visit_class_stmt` (`interpreter.rs` lines 403–416): each
`Function` statement becomes a function literal over the current
environment, marked initialiser when its name is `init`; other
statements are skipped. -/
def buildMethods (envId : Nat) : List Stmt → List (String × Literal)
  | [] => []
  | .function name params body :: rest =>
      assocSet (buildMethods envId rest) name.lexeme
        (.function (.mk envId name params body (name.lexeme = "init")))
  | _ :: rest => buildMethods envId rest

/-! ## The tree-walking evaluator (`interpreter.rs`) -/

/-- The resolver's side table (`Interpreter.locals`), keyed in the source
by node identity; abstract and read-only during evaluation. -/
abbrev LocalsMap := Expr → Option Nat

/-- The interpreter's mutable state: the shared store, the current
environment frame (`Interpreter.environment`; the globals frame has
index 0) and the text printed so far. -/
structure InterpState where
  store : Store
  envId : Nat
  output : List String

/-- Lox display form (the `Display` impls printed by `print`); no
property proved below inspects the rendered text. -/
def display (s : Store) : Literal → String
  | .number q => numToString q
  | .string str => str
  | .boolean b => if b then "true" else "false"
  | .nil => "nil"
  | .function f => "<fn " ++ f.name.lexeme ++ ">"
  | .nativeFunction => "<native fn>"
  | .classV c => c.name
  | .instanceV id =>
      match s.getInst id with
      | some i => i.cls.name ++ " instance"
      | none => ""

/-- `Interpreter::look_up_variable`: a resolved distance goes through
`get_at` against the current environment; otherwise the globals frame is
consulted with a chain-walking `get`. -/
def lookUpVariable (locals : LocalsMap) (st : InterpState) (name : Token)
    (wrapper : Expr) : Except LoxError Literal :=
  match locals wrapper with
  | some d => envGetAt st.store st.envId d name.lexeme
  | none => envGet st.store 0 name

mutual

/-- `Interpreter::evaluate` / the `ExprVisitor` impl of `interpreter.rs`.
Fuelled: every recursive evaluation step decrements `fuel`; exhaustion
yields `abort` (never reached at the fuel supplied in the theorems). -/
def evalExpr (locals : LocalsMap) :
    Nat → InterpState → Expr → (Except LoxError Literal) × InterpState
  | 0, st, _ => (.error .abort, st)
  | n + 1, st, e =>
      match e with
      | .assign name value =>
          match evalExpr locals n st value with
          | (.error er, st) => (.error er, st)
          | (.ok v, st) =>
              match locals (Expr.assign name value) with
              | some d =>
                  match envAssignAt st.store st.envId d name v with
                  | .ok store => (.ok v, { st with store })
                  | .error er => (.error er, st)
              | none =>
                  match envAssign st.store 0 name v with
                  | .ok store => (.ok v, { st with store })
                  | .error er => (.error er, st)
      | .binary l op r =>
          match evalExpr locals n st l with
          | (.error er, st) => (.error er, st)
          | (.ok left, st) =>
              match evalExpr locals n st r with
              | (.error er, st) => (.error er, st)
              | (.ok right, st) => (binaryDispatch op left right, st)
      | .call callee bracket args =>
          match evalExpr locals n st callee with
          | (.error er, st) => (.error er, st)
          | (.ok calleeV, st) =>
              match evalArgs locals n st args with
              | (.error er, st) => (.error er, st)
              | (.ok argVals, st) =>
                  match calleeV with
                  | .function f =>
                      if argVals.length ≠ f.params.length % 256 then
                        (.error (.runtimeErr bracket
                          ("Expected " ++ toString (f.params.length % 256) ++
                           " arguments but got " ++
                           toString argVals.length ++ ".")), st)
                      else callFunction locals n st f argVals
                  | .classV c =>
                      let arity :=
                        match findMethod c "init" with
                        | some (.function i) => i.params.length % 256
                        | _ => 0
                      if argVals.length ≠ arity then
                        (.error (.runtimeErr bracket
                          ("Expected " ++ toString arity ++
                           " arguments but got " ++
                           toString argVals.length ++ ".")), st)
                      else callClass locals n st c argVals
                  | _ =>
                      (.error (.runtimeErr bracket
                        "Can only call functions and classes."), st)
      | .get object name =>
          match evalExpr locals n st object with
          | (.error er, st) => (.error er, st)
          | (.ok obj, st) =>
              match obj with
              | .instanceV id => (instanceGet st.store id name, st)
              | _ =>
                  (.error (.runtimeErr name
                    "Only instances have properties."), st)
      | .grouping inner => evalExpr locals n st inner
      | .literal v =>
          match v with
          | some v => (.ok v, st)
          | none => (.error .abort, st)
      | .logical l op r =>
          match evalExpr locals n st l with
          | (.error er, st) => (.error er, st)
          | (.ok left, st) =>
              if op.isType .orK then
                if isTruthy left then (.ok left, st)
                else evalExpr locals n st r
              else
                if !isTruthy left then (.ok left, st)
                else evalExpr locals n st r
      | .set object name value =>
          match evalExpr locals n st object with
          | (.error er, st) => (.error er, st)
          | (.ok obj, st) =>
              match obj with
              | .instanceV id =>
                  match evalExpr locals n st value with
                  | (.error er, st) => (.error er, st)
                  | (.ok v, st) =>
                      (.ok v, { st with store := instanceSet st.store id name v })
              | _ =>
                  (.error (.runtimeErr name
                    "Only instances have fields."), st)
      | .superE keyword method =>
          let distance := (locals (Expr.superE keyword method)).getD 0
          match envGetAt st.store st.envId distance "super" with
          | .error er => (.error er, st)
          | .ok superV =>
              match superV with
              | .classV c =>
                  match distance with
                  | 0 => (.error .abort, st)
                  | d + 1 =>
                      match envGetAt st.store st.envId d "this" with
                      | .error er => (.error er, st)
                      | .ok object =>
                          match findMethod c method.lexeme with
                          | none =>
                              (.error (.runtimeErr method
                                ("Undefined property '" ++
                                 method.lexeme ++ "'.")), st)
                          | some (.function f) =>
                              let (store, bound) :=
                                bindFunction st.store f object
                              (.ok (.function bound), { st with store })
                          | some _ => (.error .abort, st)
              | _ => (.error .abort, st)
      | .thisE keyword =>
          (lookUpVariable locals st keyword (Expr.thisE keyword), st)
      | .unary op right =>
          match evalExpr locals n st right with
          | (.error er, st) => (.error er, st)
          | (.ok rightV, st) =>
              match op.tokenType with
              | .bang => (.ok (.boolean (!isTruthy rightV)), st)
              | .minus =>
                  match rightV with
                  | .number q => (.ok (.number (-q)), st)
                  | _ => (.error (numberError op), st)
              | _ => (.error (internalError op), st)
      | .variable name =>
          (lookUpVariable locals st name (Expr.variable name), st)

/-- Argument evaluation loop of `Interpreter::visit_call_expr`
(left-to-right, first error stops). -/
def evalArgs (locals : LocalsMap) :
    Nat → InterpState → List Expr →
      (Except LoxError (List Literal)) × InterpState
  | 0, st, _ => (.error .abort, st)
  | _ + 1, st, [] => (.ok [], st)
  | n + 1, st, e :: rest =>
      match evalExpr locals n st e with
      | (.error er, st) => (.error er, st)
      | (.ok v, st) =>
          match evalArgs locals n st rest with
          | (.error er, st) => (.error er, st)
          | (.ok vs, st) => (.ok (v :: vs), st)

/-- `Interpreter::execute` / the `StmtVisitor` impl of `interpreter.rs`. -/
def execStmt (locals : LocalsMap) :
    Nat → InterpState → Stmt → (Except LoxError Unit) × InterpState
  | 0, st, _ => (.error .abort, st)
  | n + 1, st, s =>
      match s with
      | .block stmts =>
          let newId := st.store.envs.length
          let store := st.store.pushEnv { values := [], enclosing := some st.envId }
          execBlock locals n { st with store } stmts newId
      | .breakS _ => (.error .breakSignal, st)
      | .classS name superclassExpr methodStmts =>
          let superRes :
              (Except LoxError (Option ClassData)) × InterpState :=
            match superclassExpr with
            | some sExpr =>
                match evalExpr locals n st sExpr with
                | (.error er, st) => (.error er, st)
                | (.ok v, st) =>
                    match v with
                    | .classV c => (.ok (some c), st)
                    | _ =>
                        match sExpr with
                        | .variable vname =>
                            (.error (.runtimeErr vname
                              "Superclass must be a class."), st)
                        | _ => (.error .abort, st)
            | none => (.ok none, st)
          match superRes with
          | (.error er, st) => (.error er, st)
          | (.ok superclass, st) =>
              let st := { st with
                store := envDefine st.store st.envId name.lexeme .nil }
              let (enclosing, st) :=
                match superclass with
                | some sc =>
                    let newId := st.store.envs.length
                    let store := st.store.pushEnv
                      { values := [("super", .classV sc)],
                        enclosing := some st.envId }
                    (some st.envId, { st with store, envId := newId })
                | none => (none, st)
              let methods := buildMethods st.envId methodStmts
              let classLit :=
                Literal.classV (.mk superclass name.lexeme methods)
              let st :=
                match enclosing with
                | some prev => { st with envId := prev }
                | none => st
              match envAssign st.store st.envId name classLit with
              | .ok store => (.ok (), { st with store })
              | .error er => (.error er, st)
      | .expression e =>
          match evalExpr locals n st e with
          | (.error er, st) => (.error er, st)
          | (.ok _, st) => (.ok (), st)
      | .function name params body =>
          let f := FunctionData.mk st.envId name params body false
          (.ok (), { st with
            store := envDefine st.store st.envId name.lexeme (.function f) })
      | .ifS cond thenB elseB =>
          match evalExpr locals n st cond with
          | (.error er, st) => (.error er, st)
          | (.ok v, st) =>
              if isTruthy v then execStmt locals n st thenB
              else
                match elseB with
                | some b => execStmt locals n st b
                | none => (.ok (), st)
      | .print e =>
          match evalExpr locals n st e with
          | (.error er, st) => (.error er, st)
          | (.ok v, st) =>
              (.ok (), { st with output := st.output ++ [display st.store v] })
      | .returnS _ value =>
          match value with
          | some v =>
              match evalExpr locals n st v with
              | (.error er, st) => (.error er, st)
              | (.ok lit, st) => (.error (.returnSignal lit), st)
          | none => (.error (.returnSignal .nil), st)
      | .varS name init =>
          match
            (match init with
             | some i => evalExpr locals n st i
             | none => (.ok .nil, st)) with
          | (.error er, st) => (.error er, st)
          | (.ok v, st) =>
              (.ok (), { st with
                store := envDefine st.store st.envId name.lexeme v })
      | .whileS cond body =>
          match evalExpr locals n st cond with
          | (.error er, st) => (.error er, st)
          | (.ok v, st) =>
              if isTruthy v then
                match execStmt locals n st body with
                | (.error er, st) =>
                    if er.isBreak then (.ok (), st) else (.error er, st)
                | (.ok (), st) => execStmt locals n st (Stmt.whileS cond body)
              else (.ok (), st)

/-- `Interpreter::interpret` / the statement loop of `execute_block`:
execute in order, stop at the first escaping signal. -/
def execStmts (locals : LocalsMap) :
    Nat → InterpState → List Stmt → (Except LoxError Unit) × InterpState
  | 0, st, _ => (.error .abort, st)
  | _ + 1, st, [] => (.ok (), st)
  | n + 1, st, s :: rest =>
      match execStmt locals n st s with
      | (.error er, st) => (.error er, st)
      | (.ok (), st) => execStmts locals n st rest

/-- `Interpreter::execute_block`: swap in the given frame, run the
statements, restore the previous frame on every exit path. -/
def execBlock (locals : LocalsMap) :
    Nat → InterpState → List Stmt → Nat → (Except LoxError Unit) × InterpState
  | 0, st, _, _ => (.error .abort, st)
  | n + 1, st, stmts, newEnvId =>
      let prev := st.envId
      let (res, st) := execStmts locals n { st with envId := newEnvId } stmts
      (res, { st with envId := prev })

/-- `LoxFunction::call` from `lox_function.rs` (lines 52–73): create a
frame whose parent is the captured closure, bind each parameter to its
argument, and then — *before any statement of the body runs* — an
initialiser returns the `this` of the captured closure at distance 0
(`lines 64–66`); only a non-initialiser executes the body, turning an
escaping `Return` signal into the result and completing with `Nil`. -/
def callFunction (locals : LocalsMap) :
    Nat → InterpState → FunctionData → List Literal →
      (Except LoxError Literal) × InterpState
  | 0, st, _, _ => (.error .abort, st)
  | n + 1, st, f, args =>
      let newId := st.store.envs.length
      let store := st.store.pushEnv { values := [], enclosing := some f.closure }
      let store := (f.params.zip args).foldl
        (fun s pa => envDefine s newId pa.1.lexeme pa.2) store
      let st := { st with store }
      if f.isInitialiser then
        (envGetAt st.store f.closure 0 "this", st)
      else
        match execBlock locals n st f.body newId with
        | (.ok (), st) => (.ok .nil, st)
        | (.error er, st) => (er.getReturnValue, st)

/-- `LoxClass::call` from `lox_class.rs` (lines 47–62): construct the
instance; when an `init` method exists, bind it to the instance and call
it (result ignored, errors propagate); return the instance. -/
def callClass (locals : LocalsMap) :
    Nat → InterpState → ClassData → List Literal →
      (Except LoxError Literal) × InterpState
  | 0, st, _, _ => (.error .abort, st)
  | n + 1, st, c, args =>
      let instId := st.store.insts.length
      let store := st.store.pushInst { cls := c, fields := [] }
      let st := { st with store }
      let inst := Literal.instanceV instId
      match findMethod c "init" with
      | some (.function init) =>
          let (store, bound) := bindFunction st.store init inst
          match callFunction locals n { st with store } bound args with
          | (.ok _, st) => (.ok inst, st)
          | (.error er, st) => (.error er, st)
      | _ => (.ok inst, st)

end

/-- `Interpreter::new`: a globals frame holding the native `clock`. -/
def initialState : InterpState :=
  { store :=
      { envs := [{ values := [("clock", .nativeFunction)], enclosing := none }],
        insts := [] },
    envId := 0,
    output := [] }

/-- Run a program from the initial interpreter state
(`Interpreter::interpret`). -/
def interpretProgram (locals : LocalsMap) (fuel : Nat)
    (program : List Stmt) : (Except LoxError Unit) × InterpState :=
  execStmts locals fuel initialState program

/-! ## A state-plus-error monad for the front-end passes

The Rust parser, resolver and scanner mutate `self` and signal failure
with `Result`; crucially the mutations performed before an `Err` persist
(panic-mode recovery relies on this), so errors carry the updated state. -/

def StEx (σ : Type) (α : Type) := σ → (Except LoxError α) × σ

instance (σ : Type) : Monad (StEx σ) where
  pure a := fun st => (.ok a, st)
  bind m f := fun st =>
    match m st with
    | (.ok a, st) => f a st
    | (.error e, st) => (.error e, st)

def getSt {σ : Type} : StEx σ σ := fun st => (.ok st, st)

def setSt {σ : Type} (st : σ) : StEx σ Unit := fun _ => (.ok (), st)

def modifySt {σ : Type} (f : σ → σ) : StEx σ Unit := fun st => (.ok (), f st)

def throwSt {σ α : Type} (e : LoxError) : StEx σ α := fun st => (.error e, st)

/-- Run a computation and reify its outcome (Rust code that inspects a
`Result` without `?`). -/
def trySt {σ α : Type} (m : StEx σ α) : StEx σ (Except LoxError α) :=
  fun st =>
    match m st with
    | (.ok a, st) => (.ok (.ok a), st)
    | (.error e, st) => (.ok (.error e), st)

/-! ## Parser (`parser.rs`) -/

/-- `struct Parser`: the token slice, the cursor, the loop-depth counter
guarding `break`, and the accumulated-error flag. -/
structure ParserState where
  tokens : List Token
  current : Nat
  loopDepth : Nat
  hadError : Bool

/-- `Parser::new`. -/
def mkParser (tokens : List Token) : ParserState :=
  { tokens := tokens, current := 0, loopDepth := 0, hadError := false }

abbrev ParseM (α : Type) := StEx ParserState α

/-- `Parser::peek`; out-of-range is `unreachable!()` in the source. -/
def pPeek : ParseM Token := do
  let st ← getSt
  match st.tokens.get? st.current with
  | some t => pure t
  | none => throwSt .abort

/-- `Parser::previous`; index 0 or out-of-range is a panic /
`unreachable!()`. -/
def pPrevious : ParseM Token := do
  let st ← getSt
  match st.current with
  | 0 => throwSt .abort
  | c + 1 =>
      match st.tokens.get? c with
      | some t => pure t
      | none => throwSt .abort

/-- `Parser::is_at_end`. -/
def pIsAtEnd : ParseM Bool := do
  pure ((← pPeek).isType .eof)

/-- `Parser::check`. -/
def pCheck (tt : TokenType) : ParseM Bool := do
  if ← pIsAtEnd then pure false
  else pure ((← pPeek).isType tt)

/-- `Parser::advance`. -/
def pAdvance : ParseM Token := do
  if !(← pIsAtEnd) then
    modifySt fun st => { st with current := st.current + 1 }
  pPrevious

/-- `Parser::is_match`: advance past the first matching kind. -/
def pIsMatch : List TokenType → ParseM Bool
  | [] => pure false
  | tt :: rest => do
      if ← pCheck tt then
        let _ ← pAdvance
        pure true
      else pIsMatch rest

/-- `Parser::consume`. -/
def pConsume (tt : TokenType) (message : String) : ParseM Token := do
  if ← pCheck tt then pAdvance
  else throwSt (.parseErr (← pPeek) message)

/-- Set `Parser.had_error` (the source couples this with printing the
diagnostic via `LoxError::parse_error`, which is dropped here). -/
def pSetHadError : ParseM Unit :=
  modifySt fun st => { st with hadError := true }

def pSynchroniseLoop : Nat → ParseM Unit
  | 0 => throwSt .abort
  | n + 1 => do
      if ← pIsAtEnd then pure ()
      else if (← pPrevious).isType .semicolon then pure ()
      else if (← pPeek).isTypes
          [.classK, .funK, .varK, .forK, .ifK, .whileK, .printK, .returnK] then
        pure ()
      else do
        let _ ← pAdvance
        pSynchroniseLoop n

/-- `Parser::synchronise`: discard tokens until just after a `;` or just
before a statement-leading keyword. -/
def pSynchronise (n : Nat) : ParseM Unit := do
  let _ ← pAdvance
  pSynchroniseLoop n

/-- The pure tree assembly of `Parser::for_statement` (`parser.rs` lines
195–241): wrap the body with the increment, wrap in a `While` whose
condition defaults to literal `true`, and prepend the initialiser. -/
def forAssemble (initialiser : Option Stmt) (condition : Option Expr)
    (increment : Option Expr) (body : Stmt) : Stmt :=
  let body :=
    match increment with
    | some i => Stmt.block [body, Stmt.expression i]
    | none => body
  let body :=
    Stmt.whileS
      (match condition with
       | some c => c
       | none => Expr.literal (some (.boolean true)))
      body
  match initialiser with
  | some i => Stmt.block [i, body]
  | none => body

/-- `Parser::break_statement` (`parser.rs` lines 147–159): outside a loop
the error is reported and `had_error` set, but parsing continues; note
the produced node stores `peek()` — the token *after* the consumed
semicolon. -/
def pBreakStatement : ParseM Stmt := do
  let st ← getSt
  if st.loopDepth = 0 then
    pSetHadError
  let _ ← pConsume .semicolon "Expect ';' after 'break'."
  pure (Stmt.breakS (← pPeek))

mutual

/-- `Parser::parse` (`parser.rs` lines 22–41): accumulate declarations,
recording (not propagating) per-declaration failures; fail overall iff
`had_error`. -/
def pParse : Nat → ParseM (List Stmt)
  | 0 => throwSt .abort
  | n + 1 => do
      let stmts ← pParseLoop n []
      let st ← getSt
      if !st.hadError then pure stmts
      else throwSt LoxError.newParseFailure

def pParseLoop : Nat → List Stmt → ParseM (List Stmt)
  | 0, _ => throwSt .abort
  | n + 1, acc => do
      if ← pIsAtEnd then pure acc
      else
        match ← trySt (pDeclaration n) with
        | .ok s => pParseLoop n (acc ++ [s])
        | .error _ => do
            pSetHadError
            pParseLoop n acc

/-- `Parser::declaration` (lines 47–63): keyword dispatch; on error run
panic-mode recovery and re-raise. -/
def pDeclaration : Nat → ParseM Stmt
  | 0 => throwSt .abort
  | n + 1 => do
      let res ← trySt (do
        if ← pIsMatch [.classK] then pClassDeclaration n
        else if ← pIsMatch [.funK] then pFunction n "function"
        else if ← pIsMatch [.varK] then pVarDeclaration n
        else pStatement n)
      match res with
      | .ok s => pure s
      | .error e => do
          pSynchronise n
          throwSt e

/-- `Parser::class_declaration` (lines 65–103). -/
def pClassDeclaration : Nat → ParseM Stmt
  | 0 => throwSt .abort
  | n + 1 => do
      let name ← pConsume .identifier "Expect class name."
      let superclass ←
        if ← pIsMatch [.less] then do
          let _ ← pConsume .identifier "Expect superclass name."
          pure (some (Expr.variable (← pPrevious)))
        else pure none
      let _ ← pConsume .leftBrace "Expect '\x7b' before class body."
      let methods ← pClassMethodsLoop n []
      let _ ← pConsume .rightBrace "Expect '\x7d' after class body."
      pure (Stmt.classS name superclass methods)

def pClassMethodsLoop : Nat → List Stmt → ParseM (List Stmt)
  | 0, _ => throwSt .abort
  | n + 1, acc => do
      if (!(← pCheck .rightBrace)) && !(← pIsAtEnd) then do
        let m ← pFunction n "method"
        pClassMethodsLoop n (acc ++ [m])
      else pure acc

/-- `Parser::statement` (lines 105–145). -/
def pStatement : Nat → ParseM Stmt
  | 0 => throwSt .abort
  | n + 1 => do
      if ← pIsMatch [.forK] then pForStatement n
      else if ← pIsMatch [.ifK] then pIfStatement n
      else if ← pIsMatch [.printK] then pPrintStatement n
      else if ← pIsMatch [.returnK] then pReturnStatement n
      else if ← pIsMatch [.whileK] then pWhileStatement n
      else if ← pIsMatch [.leftBrace] then do
        pure (Stmt.block (← pBlock n))
      else if ← pIsMatch [.breakK] then pBreakStatement
      else pExpressionStatement n

/-- `Parser::for_statement` (lines 161–245): parse the four clauses,
maintain the loop-depth counter (also on the error path), and assemble
the desugared tree (`forAssemble`). -/
def pForStatement : Nat → ParseM Stmt
  | 0 => throwSt .abort
  | n + 1 => do
      let _ ← pConsume .leftBracket "Expect '(' after 'for'."
      let initialiser ←
        if ← pIsMatch [.semicolon] then pure none
        else if ← pIsMatch [.varK] then do
          pure (some (← pVarDeclaration n))
        else do
          pure (some (← pExpressionStatement n))
      let condition ←
        if ← pCheck .semicolon then pure none
        else do pure (some (← pExpression n))
      let _ ← pConsume .semicolon "Expect ';' after loop condition."
      let increment ←
        if ← pCheck .rightBracket then pure none
        else do pure (some (← pExpression n))
      let _ ← pConsume .rightBracket "Expect ')' after for clauses."
      modifySt fun st => { st with loopDepth := st.loopDepth + 1 }
      match ← trySt (pStatement n) with
      | .error e => do
          modifySt fun st => { st with loopDepth := st.loopDepth - 1 }
          throwSt e
      | .ok body => do
          let res := forAssemble initialiser condition increment body
          modifySt fun st => { st with loopDepth := st.loopDepth - 1 }
          pure res

/-- `Parser::if_statement` (lines 247–267). -/
def pIfStatement : Nat → ParseM Stmt
  | 0 => throwSt .abort
  | n + 1 => do
      let _ ← pConsume .leftBracket "Expect '(' after 'if'."
      let condition ← pExpression n
      let _ ← pConsume .rightBracket "Expect ')' after if condition."
      let thenBranch ← pStatement n
      let elseBranch ←
        if ← pIsMatch [.elseK] then do
          pure (some (← pStatement n))
        else pure none
      pure (Stmt.ifS condition thenBranch elseBranch)

/-- `Parser::print_statement` (lines 269–278). -/
def pPrintStatement : Nat → ParseM Stmt
  | 0 => throwSt .abort
  | n + 1 => do
      let value ← pExpression n
      let _ ← pConsume .semicolon "Expect ';' after value."
      pure (Stmt.print value)

/-- `Parser::return_statement` (lines 280–290). -/
def pReturnStatement : Nat → ParseM Stmt
  | 0 => throwSt .abort
  | n + 1 => do
      let keyword ← pPrevious
      let value ←
        if ← pCheck .semicolon then pure none
        else do pure (some (← pExpression n))
      let _ ← pConsume .semicolon "Expect ';' after return value."
      pure (Stmt.returnS keyword value)

/-- `Parser::var_declaration` (lines 292–307). -/
def pVarDeclaration : Nat → ParseM Stmt
  | 0 => throwSt .abort
  | n + 1 => do
      let name ← pConsume .identifier "Expect variable name."
      let initialiser ←
        if ← pIsMatch [.assign] then do
          pure (some (← pExpression n))
        else pure none
      let _ ← pConsume .semicolon "Expect ';' after variable declaration."
      pure (Stmt.varS name initialiser)

/-- `Parser::while_statement` (lines 309–329). -/
def pWhileStatement : Nat → ParseM Stmt
  | 0 => throwSt .abort
  | n + 1 => do
      let _ ← pConsume .leftBracket "Expect '(' after 'while'."
      let condition ← pExpression n
      let _ ← pConsume .rightBracket "Expect ')' after condition."
      modifySt fun st => { st with loopDepth := st.loopDepth + 1 }
      match ← trySt (pStatement n) with
      | .error e => do
          modifySt fun st => { st with loopDepth := st.loopDepth - 1 }
          throwSt e
      | .ok body => do
          modifySt fun st => { st with loopDepth := st.loopDepth - 1 }
          pure (Stmt.whileS condition body)

/-- `Parser::expression_statement` (lines 331–340). -/
def pExpressionStatement : Nat → ParseM Stmt
  | 0 => throwSt .abort
  | n + 1 => do
      let e ← pExpression n
      let _ ← pConsume .semicolon "Expect ';' after expression."
      pure (Stmt.expression e)

/-- `Parser::function` (lines 342–388): the parameter-count limit sets
`had_error` (with the reported diagnostic "Can't have more than 255
parameters.") but parsing continues. -/
def pFunction : Nat → String → ParseM Stmt
  | 0, _ => throwSt .abort
  | n + 1, kind => do
      let name ← pConsume .identifier ("Expect " ++ kind ++ " name.")
      let _ ← pConsume .leftBracket ("Expect '(' after " ++ kind ++ " name.")
      let params ←
        if !(← pCheck .rightBracket) then do
          let first ← pConsume .identifier "Expect parameter name."
          pParamsLoop n [first]
        else pure []
      let _ ← pConsume .rightBracket "Expect ')' after parameters."
      let _ ← pConsume .leftBrace ("Expect '\x7b' before " ++ kind ++ " body.")
      let body ← pBlock n
      pure (Stmt.function name params body)

def pParamsLoop : Nat → List Token → ParseM (List Token)
  | 0, _ => throwSt .abort
  | n + 1, params => do
      if ← pIsMatch [.comma] then do
        if params.length ≥ 255 then
          pSetHadError
        let p ← pConsume .identifier "Expect parameter name."
        pParamsLoop n (params ++ [p])
      else pure params

/-- `Parser::block` (lines 390–399): declarations propagate errors. -/
def pBlock : Nat → ParseM (List Stmt)
  | 0 => throwSt .abort
  | n + 1 => pBlockLoop n []

def pBlockLoop : Nat → List Stmt → ParseM (List Stmt)
  | 0, _ => throwSt .abort
  | n + 1, acc => do
      if (!(← pCheck .rightBrace)) && !(← pIsAtEnd) then do
        let s ← pDeclaration n
        pBlockLoop n (acc ++ [s])
      else do
        let _ ← pConsume .rightBrace "Expect '\x7d' after block."
        pure acc

/-- `Parser::expression` (lines 43–45). -/
def pExpression : Nat → ParseM Expr
  | 0 => throwSt .abort
  | n + 1 => pAssignment n

/-- `Parser::assignment` (lines 401–435): right-recursive; an invalid
target is reported ("Invalid assignment target.") and `had_error` set,
but the left-hand side is returned so parsing continues. -/
def pAssignment : Nat → ParseM Expr
  | 0 => throwSt .abort
  | n + 1 => do
      let expr ← pOr n
      if !(← pIsMatch [.assign]) then pure expr
      else do
        let _equals ← pPrevious
        let value ← pAssignment n
        match expr with
        | .variable vname => pure (Expr.assign vname value)
        | .get obj gname => pure (Expr.set obj gname value)
        | _ => do
            pSetHadError
            pure expr

/-- `Parser::or` (lines 437–452). -/
def pOr : Nat → ParseM Expr
  | 0 => throwSt .abort
  | n + 1 => do
      let e ← pAnd n
      pOrLoop n e

def pOrLoop : Nat → Expr → ParseM Expr
  | 0, _ => throwSt .abort
  | n + 1, e => do
      if ← pIsMatch [.orK] then do
        let op ← pPrevious
        let right ← pAnd n
        pOrLoop n (Expr.logical e op right)
      else pure e

/-- `Parser::and` (lines 454–469). -/
def pAnd : Nat → ParseM Expr
  | 0 => throwSt .abort
  | n + 1 => do
      let e ← pEquality n
      pAndLoop n e

def pAndLoop : Nat → Expr → ParseM Expr
  | 0, _ => throwSt .abort
  | n + 1, e => do
      if ← pIsMatch [.andK] then do
        let op ← pPrevious
        let right ← pEquality n
        pAndLoop n (Expr.logical e op right)
      else pure e

/-- `Parser::equality` (lines 471–486). -/
def pEquality : Nat → ParseM Expr
  | 0 => throwSt .abort
  | n + 1 => do
      let e ← pComparison n
      pEqualityLoop n e

def pEqualityLoop : Nat → Expr → ParseM Expr
  | 0, _ => throwSt .abort
  | n + 1, e => do
      if ← pIsMatch [.bangEqual, .equalEqual] then do
        let op ← pPrevious
        let right ← pComparison n
        pEqualityLoop n (Expr.binary e op right)
      else pure e

/-- `Parser::comparison` (lines 488–508). -/
def pComparison : Nat → ParseM Expr
  | 0 => throwSt .abort
  | n + 1 => do
      let e ← pTerm n
      pComparisonLoop n e

def pComparisonLoop : Nat → Expr → ParseM Expr
  | 0, _ => throwSt .abort
  | n + 1, e => do
      if ← pIsMatch [.greater, .greaterEqual, .less, .lessEqual] then do
        let op ← pPrevious
        let right ← pTerm n
        pComparisonLoop n (Expr.binary e op right)
      else pure e

/-- `Parser::term` (lines 510–525): note that the right operand of the
loop is parsed by a recursive call to `term` itself (not `factor`). -/
def pTerm : Nat → ParseM Expr
  | 0 => throwSt .abort
  | n + 1 => do
      let e ← pFactor n
      pTermLoop n e

def pTermLoop : Nat → Expr → ParseM Expr
  | 0, _ => throwSt .abort
  | n + 1, e => do
      if ← pIsMatch [.minus, .plus] then do
        let op ← pPrevious
        let right ← pTerm n
        pTermLoop n (Expr.binary e op right)
      else pure e

/-- `Parser::factor` (lines 527–542): the right operand is `unary`. -/
def pFactor : Nat → ParseM Expr
  | 0 => throwSt .abort
  | n + 1 => do
      let e ← pUnary n
      pFactorLoop n e

def pFactorLoop : Nat → Expr → ParseM Expr
  | 0, _ => throwSt .abort
  | n + 1, e => do
      if ← pIsMatch [.slash, .star] then do
        let op ← pPrevious
        let right ← pUnary n
        pFactorLoop n (Expr.binary e op right)
      else pure e

/-- `Parser::unary` (lines 544–556). -/
def pUnary : Nat → ParseM Expr
  | 0 => throwSt .abort
  | n + 1 => do
      if ← pIsMatch [.bang, .minus] then do
        let op ← pPrevious
        let right ← pUnary n
        pure (Expr.unary op right)
      else pCall n

/-- `Parser::finish_call` (lines 558–589): at the 255-argument limit the
source sets `had_error` and *returns the error* — aborting this call
expression — unlike the parameter-list limit. -/
def pFinishCall : Nat → Expr → ParseM Expr
  | 0, _ => throwSt .abort
  | n + 1, callee => do
      let args ←
        if !(← pCheck .rightBracket) then do
          let first ← pExpression n
          pArgsLoop n [first]
        else pure []
      let bracket ← pConsume .rightBracket "Expect ')' after arguments."
      pure (Expr.call callee bracket args)

def pArgsLoop : Nat → List Expr → ParseM (List Expr)
  | 0, _ => throwSt .abort
  | n + 1, args => do
      if ← pIsMatch [.comma] then do
        if args.length ≥ 255 then do
          pSetHadError
          throwSt (.parseErr (← pPeek) "Can't have more than 255 arguments.")
        else do
          let e ← pExpression n
          pArgsLoop n (args ++ [e])
      else pure args

/-- `Parser::call` (lines 591–612). -/
def pCall : Nat → ParseM Expr
  | 0 => throwSt .abort
  | n + 1 => do
      let e ← pPrimary n
      pCallLoop n e

def pCallLoop : Nat → Expr → ParseM Expr
  | 0, _ => throwSt .abort
  | n + 1, expr => do
      if ← pIsMatch [.leftBracket] then do
        let e ← pFinishCall n expr
        pCallLoop n e
      else if ← pIsMatch [.dot] then do
        let name ← pConsume .identifier "Expect property name after '.'."
        pCallLoop n (Expr.get expr name)
      else pure expr

/-- `Parser::primary` (lines 614–690). -/
def pPrimary : Nat → ParseM Expr
  | 0 => throwSt .abort
  | n + 1 => do
      if ← pIsMatch [.falseK] then
        pure (Expr.literal (some (.boolean false)))
      else if ← pIsMatch [.trueK] then
        pure (Expr.literal (some (.boolean true)))
      else if ← pIsMatch [.nilK] then
        pure (Expr.literal (some .nil))
      else if ← pIsMatch [.number, .string] then do
        pure (Expr.literal (← pPrevious).literal)
      else if ← pIsMatch [.superK] then do
        let keyword ← pPrevious
        let _ ← pConsume .dot "Expect '.' after 'super'."
        let method ← pConsume .identifier "Expect superclass method name."
        pure (Expr.superE keyword method)
      else if ← pIsMatch [.thisK] then do
        pure (Expr.thisE (← pPrevious))
      else if ← pIsMatch [.identifier] then do
        pure (Expr.variable (← pPrevious))
      else if ← pIsMatch [.leftBracket] then do
        let e ← pExpression n
        let _ ← pConsume .rightBracket "Expect ')' after expression."
        pure (Expr.grouping e)
      else
        throwSt (.parseErr (← pPeek) "Expect expression.")

end

/-! ## Scanner (`scanner.rs`) -/

/-- `struct Scanner`: the source as a character sequence, the tokens
produced so far, the start of the current lexeme, the cursor, and the
current line. -/
structure ScannerState where
  source : List Char
  tokens : List Token
  start : Nat
  current : Nat
  line : Nat

/-- `Scanner::new`. -/
def mkScanner (source : String) : ScannerState :=
  { source := source.data, tokens := [], start := 0, current := 0, line := 1 }

abbrev ScanM (α : Type) := StEx ScannerState α

/-- `Scanner::is_at_end`. -/
def sIsAtEnd : ScanM Bool := do
  let st ← getSt
  pure (decide (st.current ≥ st.source.length))

/-- `Scanner::peek`. -/
def sPeek : ScanM (Option Char) := do
  let st ← getSt
  pure (st.source.get? st.current)

/-- `Scanner::peek_next`. -/
def sPeekNext : ScanM (Option Char) := do
  let st ← getSt
  pure (st.source.get? (st.current + 1))

/-- `Scanner::advance`; past-the-end is `unreachable!()`. -/
def sAdvance : ScanM Char := do
  let st ← getSt
  match st.source.get? st.current with
  | some c => do
      setSt { st with current := st.current + 1 }
      pure c
  | none => throwSt .abort

/-- `Scanner::is_match`. -/
def sIsMatch (expected : Char) : ScanM Bool := do
  let st ← getSt
  match st.source.get? st.current with
  | some c =>
      if c = expected then do
        let _ ← sAdvance
        pure true
      else pure false
  | none => pure false

/-- The current lexeme `source[start..current]` (out-of-range slices are
the empty string, as with the source's `map_or_else`). -/
def sText (st : ScannerState) : String :=
  String.mk ((st.source.drop st.start).take (st.current - st.start))

/-- `Scanner::add_token_and_literal`. -/
def sAddTokenLiteral (tt : TokenType) (lit : Option Literal) : ScanM Unit := do
  let st ← getSt
  setSt { st with
    tokens := st.tokens ++ [Token.mk tt (sText st) lit st.line] }

/-- `Scanner::add_token`. -/
def sAddToken (tt : TokenType) : ScanM Unit :=
  sAddTokenLiteral tt none

/-- The identifier-character class (`CheckCharacter` in `scanner.rs`):
ASCII alphanumeric or underscore. -/
def isValidForLoxIdentifier (c : Char) : Bool :=
  c.isAlphanum || c = '_'

/-- The keyword table (`MatchIdentifier` in `scanner.rs`). -/
def matchLoxKeyword (s : String) : TokenType :=
  if s = "and" then .andK
  else if s = "class" then .classK
  else if s = "else" then .elseK
  else if s = "false" then .falseK
  else if s = "for" then .forK
  else if s = "fun" then .funK
  else if s = "if" then .ifK
  else if s = "nil" then .nilK
  else if s = "or" then .orK
  else if s = "print" then .printK
  else if s = "return" then .returnK
  else if s = "super" then .superK
  else if s = "this" then .thisK
  else if s = "true" then .trueK
  else if s = "var" then .varK
  else if s = "while" then .whileK
  else if s = "break" then .breakK
  else .identifier

/-- Decimal interpretation of a number lexeme (digits with an optional
fractional part), standing in for `str::parse::<f64>`. -/
def parseDecimal (cs : List Char) : ℚ :=
  let intPart := cs.takeWhile (fun c => c ≠ '.')
  let fracPart := (cs.dropWhile (fun c => c ≠ '.')).drop 1
  let intVal : ℚ := intPart.foldl (fun acc c => 10 * acc + ((c.toNat - 48 : ℕ) : ℚ)) 0
  let fracVal : ℚ :=
    (fracPart.foldl (fun acc c => 10 * acc + ((c.toNat - 48 : ℕ) : ℚ)) 0) /
      (10 ^ fracPart.length)
  intVal + fracVal

/-- The `// …` line-comment loop in `Scanner::scan_token` (lines 84–90):
consume until a newline or the end. -/
def sLineCommentLoop : Nat → ScanM Unit
  | 0 => throwSt .abort
  | n + 1 => do
      match ← sPeek with
      | some c =>
          if c ≠ '\n' then do
            let _ ← sAdvance
            sLineCommentLoop n
          else pure ()
      | none => pure ()

/-- The delimiter-scanning loop of `Scanner::comment` (lines 182–217),
with the nesting counter. -/
def sCommentLoop : Nat → Nat → ScanM Unit
  | 0, _ => throwSt .abort
  | n + 1, counter => do
      if counter = 0 then pure ()
      else
        match ← sPeek with
        | some '/' => do
            let _ ← sAdvance
            if (← sPeek) = some '*' then do
              let _ ← sAdvance
              sCommentLoop n (counter + 1)
            else sCommentLoop n counter
        | some '*' => do
            let _ ← sAdvance
            if (← sPeek) = some '/' then do
              let _ ← sAdvance
              sCommentLoop n (counter - 1)
            else sCommentLoop n counter
        | some '\n' => do
            let _ ← sAdvance
            modifySt fun st => { st with line := st.line + 1 }
            sCommentLoop n counter
        | none => do
            let st ← getSt
            throwSt (.generalErr st.line "Unterminated block comment.")
        | some _ => do
            let _ ← sAdvance
            sCommentLoop n counter

/-- `Scanner::comment` (lines 178–220): note the unconditional
`self.advance()` on entry — the opening `*` was already consumed by
`is_match` in `scan_token`, so this consumes one character of comment
body before any delimiter is examined (and panics at end of input). -/
def sComment (n : Nat) : ScanM Unit := do
  let _ ← sAdvance
  sCommentLoop n 1

/-- The identifier loop plus keyword mapping (`Scanner::identifier`,
lines 108–123). -/
def sIdentifierLoop : Nat → ScanM Unit
  | 0 => throwSt .abort
  | n + 1 => do
      match ← sPeek with
      | some c =>
          if isValidForLoxIdentifier c then do
            let _ ← sAdvance
            sIdentifierLoop n
          else pure ()
      | none => pure ()

def sIdentifier (n : Nat) : ScanM Unit := do
  sIdentifierLoop n
  let st ← getSt
  sAddToken (matchLoxKeyword (sText st))

/-- The digit loops of `Scanner::number` (lines 125–151). -/
def sDigitsLoop : Nat → ScanM Unit
  | 0 => throwSt .abort
  | n + 1 => do
      match ← sPeek with
      | some c =>
          if c.isDigit then do
            let _ ← sAdvance
            sDigitsLoop n
          else pure ()
      | none => pure ()

def sNumber (n : Nat) : ScanM Unit := do
  sDigitsLoop n
  let dotNext ← sPeek
  let digitAfter ← sPeekNext
  if dotNext = some '.' ∧ (digitAfter.map Char.isDigit).getD false then do
    let _ ← sAdvance
    sDigitsLoop n
  let st ← getSt
  sAddTokenLiteral .number
    (some (.number (parseDecimal
      ((st.source.drop st.start).take (st.current - st.start)))))

/-- The string loop of `Scanner::string` (lines 153–176). -/
def sStringLoop : Nat → ScanM Unit
  | 0 => throwSt .abort
  | n + 1 => do
      match ← sPeek with
      | some c =>
          if c = '"' then pure ()
          else do
            if c = '\n' then
              modifySt fun st => { st with line := st.line + 1 }
            let _ ← sAdvance
            sStringLoop n
      | none => pure ()

def sString (n : Nat) : ScanM Unit := do
  sStringLoop n
  if ← sIsAtEnd then do
    let st ← getSt
    throwSt (.generalErr st.line "Unterminated string.")
  else do
    let _ ← sAdvance
    let st ← getSt
    let value := String.mk
      ((st.source.drop (st.start + 1)).take (st.current - 1 - (st.start + 1)))
    sAddTokenLiteral .string (some (.string value))

/-- `Scanner::scan_token` (lines 37–106). -/
def sScanToken (n : Nat) : ScanM Unit := do
  let c ← sAdvance
  if c = '(' then sAddToken .leftBracket
  else if c = ')' then sAddToken .rightBracket
  else if c = '{' then sAddToken .leftBrace
  else if c = '}' then sAddToken .rightBrace
  else if c = ',' then sAddToken .comma
  else if c = '.' then sAddToken .dot
  else if c = '+' then sAddToken .plus
  else if c = '-' then sAddToken .minus
  else if c = '*' then sAddToken .star
  else if c = ';' then sAddToken .semicolon
  else if c = '!' then do
    sAddToken (if ← sIsMatch '=' then .bangEqual else .bang)
  else if c = '=' then do
    sAddToken (if ← sIsMatch '=' then .equalEqual else .assign)
  else if c = '<' then do
    sAddToken (if ← sIsMatch '=' then .lessEqual else .less)
  else if c = '>' then do
    sAddToken (if ← sIsMatch '=' then .greaterEqual else .greater)
  else if c = '/' then do
    if ← sIsMatch '/' then sLineCommentLoop n
    else if ← sIsMatch '*' then sComment n
    else sAddToken .slash
  else if c = ' ' ∨ c = '\r' ∨ c = '\t' then pure ()
  else if c = '\n' then
    modifySt fun st => { st with line := st.line + 1 }
  else if c = '"' then sString n
  else if c.isDigit then sNumber n
  else if isValidForLoxIdentifier c then sIdentifier n
  else do
    let st ← getSt
    throwSt (.generalErr st.line "Unexpected character.")

/-- The scan loop of `Scanner::scan_tokens` (lines 22–31). -/
def sScanLoop : Nat → ScanM Unit
  | 0 => throwSt .abort
  | n + 1 => do
      if ← sIsAtEnd then pure ()
      else do
        modifySt fun st => { st with start := st.current }
        sScanToken n
        sScanLoop n

/-- `Scanner::scan_tokens`: scan every lexeme (the first lexical error
aborts), then append the end-of-file token. -/
def sScanTokens (n : Nat) : ScanM (List Token) := do
  sScanLoop n
  modifySt fun st =>
    { st with tokens := st.tokens ++ [Token.newEof st.line] }
  pure (← getSt).tokens

/-- Scan a whole source string with ample fuel. -/
def scanSource (source : String) : (Except LoxError (List Token)) × ScannerState :=
  sScanTokens (source.length * 2 + 2) (mkScanner source)

/-! ## Resolver (`resolver.rs`)

The checked-in `resolver.rs` predates the inheritance chapter: its
`ClassType` enum (lines 290–292) has only the `Class` variant, its
`visit_class_stmt` (lines 196–223) never reads the class's superclass
field, and the `ExprVisitor` impl has no method for `super` expressions
at all (its stage's `expr.rs` has no `Super` variant to dispatch on).
The embedding mirrors this exactly; the `superE` arm below is the one
place with no corresponding source code and is marked by `abort`. -/

/-- `enum ClassType` from `resolver.rs` lines 290–292 (no `Subclass`). -/
inductive ClassType where
  | classT
  deriving DecidableEq, Repr

/-- `enum FunctionType` from `resolver.rs` lines 294–298. -/
inductive FunctionType where
  | functionT
  | initialiserT
  | methodT
  deriving DecidableEq, Repr

/-- `Option<FunctionType>::is_initialiser` (`CheckType` in
`resolver.rs`). -/
def isInitialiserType : Option FunctionType → Bool
  | some .initialiserT => true
  | _ => false

/-- `struct Resolver`: the scope stack (innermost frame first, matching
`Vec` top-of-stack access through `last()`), the class/function context
tags, the error flag, and the distance table recorded into the
interpreter via `Interpreter::resolve` (keyed on node identity in the
source; recorded here as a list of (node, distance) pairs). -/
structure ResolverState where
  scopes : List (List (String × Bool))
  currentClassType : Option ClassType
  currentFunctionType : Option FunctionType
  hadError : Bool
  locals : List (Expr × Nat)

/-- `Resolver::new`. -/
def mkResolver : ResolverState :=
  { scopes := [], currentClassType := none, currentFunctionType := none,
    hadError := false, locals := [] }

abbrev ResolveM (α : Type) := StEx ResolverState α

/-- `Resolver::begin_scope`. -/
def rBeginScope : ResolveM Unit :=
  modifySt fun st => { st with scopes := [] :: st.scopes }

/-- `Resolver::end_scope`. -/
def rEndScope : ResolveM Unit :=
  modifySt fun st => { st with scopes := st.scopes.tail }

/-- `Resolver::declare`: in a local scope, flag a duplicate (reported as
"Already a variable with this name in this scope.") and enter the name
as not-yet-defined; no-op at global scope. -/
def rDeclare (name : Token) : ResolveM Unit :=
  modifySt fun st =>
    match st.scopes with
    | [] => st
    | s :: rest =>
        let st :=
          if (assocGet s name.lexeme).isSome then { st with hadError := true }
          else st
        { st with scopes := assocSet s name.lexeme false :: rest }

/-- `Resolver::define`. -/
def rDefine (name : Token) : ResolveM Unit :=
  modifySt fun st =>
    match st.scopes with
    | [] => st
    | s :: rest => { st with scopes := assocSet s name.lexeme true :: rest }

/-- The innermost-outward scan of `Resolver::resolve_local`. -/
def scopeDistance (scopes : List (List (String × Bool))) (name : String) :
    Option Nat :=
  match scopes with
  | [] => none
  | s :: rest =>
      if (assocGet s name).isSome then some 0
      else (scopeDistance rest name).map (· + 1)

/-- `Resolver::resolve_local`: record the distance of the first
enclosing scope containing the name; record nothing when every scope
misses (the use is treated as global). -/
def rResolveLocal (wrapper : Expr) (name : Token) : ResolveM Unit :=
  modifySt fun st =>
    match scopeDistance st.scopes name.lexeme with
    | some d => { st with locals := st.locals ++ [(wrapper, d)] }
    | none => st

mutual

/-- `Resolver::resolve` (lines 24–36): resolve each statement, folding
failures into `had_error`; fail overall iff the flag is set (note the
flag is global, and this function is also called on function bodies). -/
def rResolveMany : Nat → List Stmt → ResolveM Unit
  | 0, _ => throwSt .abort
  | n + 1, stmts => do
      rResolveManyLoop n stmts
      let st ← getSt
      if !st.hadError then pure ()
      else throwSt LoxError.newParseFailure

def rResolveManyLoop : Nat → List Stmt → ResolveM Unit
  | 0, _ => throwSt .abort
  | _ + 1, [] => pure ()
  | n + 1, s :: rest => do
      match ← trySt (rResolveStmt n s) with
      | .ok () => rResolveManyLoop n rest
      | .error _ => do
          modifySt fun st => { st with hadError := true }
          rResolveManyLoop n rest

/-- `Resolver::resolve_function` (lines 80–97). -/
def rResolveFunction : Nat → List Token → List Stmt →
    Option FunctionType → ResolveM Unit
  | 0, _, _, _ => throwSt .abort
  | n + 1, params, body, functionType => do
      let enclosing := (← getSt).currentFunctionType
      modifySt fun st => { st with currentFunctionType := functionType }
      rBeginScope
      rParamsDeclare params
      rResolveMany n body
      rEndScope
      modifySt fun st => { st with currentFunctionType := enclosing }

def rParamsDeclare : List Token → ResolveM Unit
  | [] => pure ()
  | p :: rest => do
      rDeclare p
      rDefine p
      rParamsDeclare rest

/-- The `ExprVisitor` impl of `resolver.rs` (lines 100–182). -/
def rResolveExpr : Nat → Expr → ResolveM Unit
  | 0, _ => throwSt .abort
  | n + 1, e =>
      match e with
      | .assign name value => do
          rResolveExpr n value
          rResolveLocal (Expr.assign name value) name
      | .binary l _ r => do
          rResolveExpr n l
          rResolveExpr n r
      | .call callee _ args => do
          rResolveExpr n callee
          rResolveArgs n args
      | .get object _ => rResolveExpr n object
      | .grouping inner => rResolveExpr n inner
      | .literal _ => pure ()
      | .logical l _ r => do
          rResolveExpr n l
          rResolveExpr n r
      | .set object _ value => do
          rResolveExpr n value
          rResolveExpr n object
      | .superE _ _ =>
          -- No corresponding code exists in the checked-in resolver:
          -- `resolver.rs` implements no `visit_super_expr` and its
          -- stage's `expr.rs` has no `Super` variant to dispatch.
          throwSt .abort
      | .thisE keyword => do
          let st ← getSt
          if st.currentClassType.isNone then do
            modifySt fun st => { st with hadError := true }
            -- reported: "Can't use 'this' outside of a class."
            pure ()
          else
            rResolveLocal (Expr.thisE keyword) keyword
      | .unary _ right => rResolveExpr n right
      | .variable name => do
          let st ← getSt
          if !st.scopes.isEmpty &&
              (match st.scopes with
               | s :: _ => assocGet s name.lexeme == some false
               | [] => false) then
            throwSt (.parseErr name
              "Can't read local variable in its own initialiser.")
          else
            rResolveLocal (Expr.variable name) name

def rResolveArgs : Nat → List Expr → ResolveM Unit
  | 0, _ => throwSt .abort
  | _ + 1, [] => pure ()
  | n + 1, e :: rest => do
      rResolveExpr n e
      rResolveArgs n rest

/-- The `StmtVisitor` impl of `resolver.rs` (lines 184–288).  Note
`visit_class_stmt` (lines 196–223): the class context is set to `Class`
(the only variant), the name declared and defined, **one** synthetic
scope pushed holding `this`, the methods resolved, the scope popped —
the statement's superclass field is never consulted and no `super`
scope exists. -/
def rResolveStmt : Nat → Stmt → ResolveM Unit
  | 0, _ => throwSt .abort
  | n + 1, s =>
      match s with
      | .block stmts => do
          rBeginScope
          rResolveMany n stmts
          rEndScope
      | .breakS _ => pure ()
      | .classS name _ methods => do
          let enclosing := (← getSt).currentClassType
          modifySt fun st => { st with currentClassType := some .classT }
          rDeclare name
          rDefine name
          rBeginScope
          modifySt fun st =>
            match st.scopes with
            | s :: rest => { st with scopes := assocSet s "this" true :: rest }
            | [] => st
          rResolveMethods n methods
          rEndScope
          modifySt fun st => { st with currentClassType := enclosing }
      | .expression e => rResolveExpr n e
      | .function name params body => do
          rDeclare name
          rDefine name
          rResolveFunction n params body (some .functionT)
      | .ifS cond thenB elseB => do
          rResolveExpr n cond
          rResolveStmt n thenB
          match elseB with
          | some b => rResolveStmt n b
          | none => pure ()
      | .print e => rResolveExpr n e
      | .returnS _ value => do
          let st ← getSt
          if st.currentFunctionType.isNone then
            modifySt fun st => { st with hadError := true }
            -- reported: "Can't return from top-level code."
          match value with
          | some v => do
              if isInitialiserType (← getSt).currentFunctionType then
                modifySt fun st => { st with hadError := true }
                -- reported: "Can't return a value from an initializer."
              rResolveExpr n v
          | none => pure ()
      | .varS name init => do
          rDeclare name
          match init with
          | some i => rResolveExpr n i
          | none => pure ()
          rDefine name
      | .whileS cond body => do
          rResolveExpr n cond
          rResolveStmt n body

def rResolveMethods : Nat → List Stmt → ResolveM Unit
  | 0, _ => throwSt .abort
  | _ + 1, [] => pure ()
  | n + 1, m :: rest => do
      match m with
      | .function mname mparams mbody =>
          rResolveFunction n mparams mbody
            (if mname.lexeme = "init" then some .initialiserT
             else some .methodT)
      | _ => pure ()
      rResolveMethods n rest

end

/-- Resolve a program from a fresh resolver (`Resolver::new` followed by
`resolve`). -/
def resolveProgram (fuel : Nat) (program : List Stmt) :
    (Except LoxError Unit) × ResolverState :=
  rResolveMany fuel program mkResolver

/-! ## Statement devices and concrete inputs for the proofs -/

/-- Written from the specification's words, for comparison with the
parser's `forAssemble`: "The parser lowers `for (init; cond; incr) body`
to an equivalent `Block { init?, While { cond ?? true, Block { body,
Expression{incr} if any } } }`." -/
def forDesugarSpec (initialiser : Option Stmt) (condition : Option Expr)
    (increment : Option Expr) (body : Stmt) : Stmt :=
  let innerBlock : Stmt :=
    match increment with
    | some i => Stmt.block [body, Stmt.expression i]
    | none => body
  let whileStmt : Stmt :=
    Stmt.whileS
      (condition.getD (Expr.literal (some (.boolean true)))) innerBlock
  match initialiser with
  | some i => Stmt.block [i, whileStmt]
  | none => whileStmt

/-- Written from the specification's words, for comparison with
`pForStatement`: parse the four clauses exactly as the source does, but
produce the tree in the spec's phrasing (`forDesugarSpec`). -/
def pForStatementSpec : Nat → ParseM Stmt
  | 0 => throwSt .abort
  | n + 1 => do
      let _ ← pConsume .leftBracket "Expect '(' after 'for'."
      let initialiser ←
        if ← pIsMatch [.semicolon] then pure none
        else if ← pIsMatch [.varK] then do
          pure (some (← pVarDeclaration n))
        else do
          pure (some (← pExpressionStatement n))
      let condition ←
        if ← pCheck .semicolon then pure none
        else do pure (some (← pExpression n))
      let _ ← pConsume .semicolon "Expect ';' after loop condition."
      let increment ←
        if ← pCheck .rightBracket then pure none
        else do pure (some (← pExpression n))
      let _ ← pConsume .rightBracket "Expect ')' after for clauses."
      modifySt fun st => { st with loopDepth := st.loopDepth + 1 }
      match ← trySt (pStatement n) with
      | .error e => do
          modifySt fun st => { st with loopDepth := st.loopDepth - 1 }
          throwSt e
      | .ok body => do
          let res := forDesugarSpec initialiser condition increment body
          modifySt fun st => { st with loopDepth := st.loopDepth - 1 }
          pure res

/-- The variant tag of a runtime value (a statement device: two values
are "of different types" iff their tags differ). -/
def literalTag : Literal → Nat
  | .number _ => 0
  | .string _ => 1
  | .boolean _ => 2
  | .function _ => 3
  | .nativeFunction => 4
  | .classV _ => 5
  | .instanceV _ => 6
  | .nil => 7

/-- Statement device: is the value a `Number`? -/
def isNumberLit : Literal → Bool
  | .number _ => true
  | _ => false

/-- Statement device: the operand pairs given a non-error meaning by the
`+` arms of `visit_binary_expr` — two numbers, or any of the three
string-concatenation combinations. -/
def plusHandled : Literal → Literal → Bool
  | .number _, .number _ => true
  | .string _, .string _ => true
  | .string _, .number _ => true
  | .number _, .string _ => true
  | _, _ => false

/-- A number token (lexeme irrelevant to the properties proved). -/
def numTok (q : ℚ) : Token := .mk .number "" (some (.number q)) 1

/-- A punctuation/operator/keyword token of the given kind. -/
def opTok (tt : TokenType) : Token := .mk tt "" none 1

def eofTok : Token := Token.newEof 1

def identTok (s : String) : Token := .mk .identifier s none 1

/-! Concrete program for claim C1: `class A { init() { this.x = 1; } }
print A().x;` (the Appendix-5-style constructor scenario of the spec). -/

def tokA : Token := identTok "A"
def tokInit : Token := identTok "init"
def tokThis : Token := .mk .thisK "this" none 1
def tokX : Token := .mk .identifier "x" none 2
def tokParen : Token := .mk .rightBracket ")" none 2

def progC1 : List Stmt :=
  [ .classS tokA none
      [ .function tokInit []
          [ .expression
              (.set (.thisE tokThis) tokX (.literal (some (.number 1)))) ] ],
    .print (.get (.call (.variable tokA) tokParen []) tokX) ]

/-! Concrete data for claim C2: a class `C` with method `m` returning
`this`, an instance of it, and the store as laid out after executing
`class C { m() { return this; } } var i = C();` — the method's closure
is the globals frame 0 and instance 0 is `i`. -/

def tokM : Token := identTok "m"
def tokReturnKw : Token := .mk .returnK "return" none 1

def fnM : FunctionData :=
  .mk 0 tokM [] [.returnS tokReturnKw (some (.thisE tokThis))] false

def clsC : ClassData := .mk none "C" [("m", .function fnM)]

def storeC2 : Store :=
  { envs := [{ values := [("clock", .nativeFunction)], enclosing := none }],
    insts := [{ cls := clsC, fields := [] }] }

/-! Concrete programs for claim C3: `class B < A { m() { print this; } }`
and the same class without the superclass clause. -/

def tokB : Token := identTok "B"

def methodMPrintThis : Stmt :=
  .function tokM [] [.print (.thisE tokThis)]

def classBWithSuper : Stmt :=
  .classS tokB (some (.variable tokA)) [methodMPrintThis]

def classBNoSuper : Stmt :=
  .classS tokB none [methodMPrintThis]

/-! Concrete token streams for claim C4: a call with 256 arguments and a
function declaration with 256 parameters. -/

def c4ArgTokens : List Token :=
  (List.range 256).flatMap fun i =>
    if i = 0 then [numTok 1] else [opTok .comma, numTok 1]

def c4CallTokens : List Token :=
  [identTok "f", opTok .leftBracket] ++ c4ArgTokens ++
    [opTok .rightBracket, opTok .semicolon, eofTok]

def c4ParamTokens : List Token :=
  (List.range 256).flatMap fun i =>
    if i = 0 then [identTok "p"] else [opTok .comma, identTok "p"]

def c4FunTokens : List Token :=
  [identTok "f", opTok .leftBracket] ++ c4ParamTokens ++
    [opTok .rightBracket, opTok .leftBrace, opTok .rightBrace, eofTok]

/-! Concrete token stream for claim C8:
`for (var i = 0; ; ) print i;`, entered at the `for` keyword. -/

def c8Tokens : List Token :=
  [opTok .forK, opTok .leftBracket, opTok .varK, identTok "i", opTok .assign,
   numTok 0, opTok .semicolon, opTok .semicolon, opTok .rightBracket,
   opTok .printK, identTok "i", opTok .semicolon, eofTok]

/-! ## Theorems -/

/-- C1.  The claim states that a user-defined function call executes the
body in a fresh child of the closure and that for an initialiser the
result is the bound `this` — "so calling a class with an `init` method
runs init's body before the constructed instance is returned".  The code
disagrees: `LoxFunction::call` returns `this` *before* `execute_block`
whenever `is_initialiser` is set (`lox_function.rs` lines 64–66), so an
initialiser's body never runs.  Concretely, for
`class A { init() { this.x = 1; } } print A().x;` the interpreter never
sets the field and fails with "Undefined property 'x'." after printing
nothing; moreover the result of calling an initialiser is entirely
independent of its body. -/
theorem claim_C1 :
    (interpretProgram (fun _ => none) 100 progC1).1 =
      .error (.runtimeErr tokX "Undefined property 'x'.") ∧
    (interpretProgram (fun _ => none) 100 progC1).2.output = [] ∧
    (∀ (locals : LocalsMap) (fuel : Nat) (st : InterpState)
       (f : FunctionData) (args : List Literal) (b : List Stmt),
       f.isInitialiser = true →
       callFunction locals fuel st f args =
         callFunction locals fuel st (f.withBody b) args) := by
  refine ⟨rfl, rfl, ?_⟩
  intro locals fuel st f args b h
  obtain ⟨c, nm, ps, bd, i⟩ := f
  simp only [FunctionData.isInitialiser] at h
  subst h
  cases fuel with
  | zero => rfl
  | succ n => rfl

/-- Witness for C1's universally quantified part at a concrete
initialiser whose body is a `print`: its call result equals the call of
the same function with the body erased. -/
theorem claim_C1_witness :
    callFunction (fun _ => none) 5 initialState
        (.mk 0 tokInit [] [.print (.literal (some (.number 1)))] true) [] =
      callFunction (fun _ => none) 5 initialState
        ((FunctionData.mk 0 tokInit []
          [.print (.literal (some (.number 1)))] true).withBody []) [] :=
  claim_C1.2.2 (fun _ => none) 5 initialState _ [] [] rfl

/-- C2.  The claim states that a property read finding a method returns
it *bound* to the instance (a fresh closure child mapping `this`).  The
checked-in `LoxInstance::get` (`lox_instance.rs` line 25) instead
returns the stored method unchanged: for class `C { m() { return this; } }`
and instance 0, `get` yields exactly the stored `fnM`, whose closure is
the globals frame — a frame with no `this` binding — whereas
`LoxFunction::bind` would have produced a new function over a fresh
frame mapping `this` to the instance.  (The caller in `interpreter.rs`
passes the instance to `get`, a signature the checked-in `get` does not
even have, so the two files cannot compile together — the binding step
was clearly intended.) -/
theorem claim_C2 :
    instanceGet storeC2 0 tokM = .ok (.function fnM) ∧
    fnM.closure = 0 ∧
    (storeC2.getEnv fnM.closure).map (fun fr => assocGet fr.values "this") =
      some none ∧
    (bindFunction storeC2 fnM (.instanceV 0)).2.closure = storeC2.envs.length ∧
    ((bindFunction storeC2 fnM (.instanceV 0)).1.getEnv
        (bindFunction storeC2 fnM (.instanceV 0)).2.closure).map
      (fun fr => assocGet fr.values "this") = some (some (.instanceV 0)) :=
  ⟨rfl, rfl, rfl, rfl, rfl⟩

/-- C3.  The claim states the resolver rejects `super` outside a
subclass and, for a class with a superclass, pushes a `this` scope plus
an additional outer `super` scope.  The checked-in resolver has no
`super` support at all: `ClassType` (lines 290–292) has only `Class`,
and `visit_class_stmt` (lines 196–223) never reads the superclass field
and pushes exactly one synthetic scope (holding `this`).  Resolving
`class B < A { m() { print this; } }` is literally identical to
resolving the same class without `< A` — no error, no extra scope, and
`this` sits at distance 1 from the method body (params scope 0, the
single class scope 1). -/
theorem claim_C3 :
    resolveProgram 32 [classBWithSuper] = resolveProgram 32 [classBNoSuper] ∧
    (resolveProgram 32 [classBWithSuper]).1 = .ok () ∧
    (resolveProgram 32 [classBWithSuper]).2.hadError = false ∧
    (resolveProgram 32 [classBWithSuper]).2.locals =
      [(Expr.thisE tokThis, 1)] :=
  ⟨rfl, rfl, rfl, rfl⟩

/-- C5 counterexample.  For `true + true` — a `+` whose operands are not
numbers and are not covered by the string-concatenation cases — the
error message is "Operands must be two numbers or two strings."
(`numbers_or_strings_error`), not the claimed "Operands must be
numbers." -/
theorem claim_C5_counterexample :
    binaryDispatch (opTok .plus) (.boolean true) (.boolean true) =
      .error (.runtimeErr (opTok .plus)
        "Operands must be two numbers or two strings.") ∧
    "Operands must be two numbers or two strings." ≠
      "Operands must be numbers." :=
  ⟨rfl, by decide⟩

/-- C5, amended: for `- * / < <= > >=` with any non-number operand the
failure message is "Operands must be numbers."; for `+`, when the
operands are not two numbers and not one of the string-concatenation
combinations, the message is instead "Operands must be two numbers or
two strings." -/
theorem claim_C5 :
    (∀ (tok : Token) (l r : Literal),
       (tok.tokenType = .minus ∨ tok.tokenType = .star ∨
        tok.tokenType = .slash ∨ tok.tokenType = .greater ∨
        tok.tokenType = .greaterEqual ∨ tok.tokenType = .less ∨
        tok.tokenType = .lessEqual) →
       (isNumberLit l && isNumberLit r) = false →
       binaryDispatch tok l r = .error (numbersError tok)) ∧
    (∀ (tok : Token) (l r : Literal), tok.tokenType = .plus →
       plusHandled l r = false →
       binaryDispatch tok l r = .error (numbersOrStringsError tok)) := by
  constructor
  · intro tok l r hop hnum
    obtain ⟨tt, lex, lit, ln⟩ := tok
    simp only [Token.tokenType] at hop
    rcases hop with h | h | h | h | h | h | h <;> subst h <;>
      cases l <;> cases r <;>
        first
          | rfl
          | simp [isNumberLit] at hnum
  · intro tok l r hop hplus
    obtain ⟨tt, lex, lit, ln⟩ := tok
    simp only [Token.tokenType] at hop
    subst hop
    cases l <;> cases r <;>
      first
        | rfl
        | simp [plusHandled] at hplus

/-- Witness for C5 at concrete inputs: `nil * nil` and `true + false`. -/
theorem claim_C5_witness :
    binaryDispatch (opTok .star) .nil .nil =
      .error (numbersError (opTok .star)) ∧
    binaryDispatch (opTok .plus) (.boolean true) (.boolean false) =
      .error (numbersOrStringsError (opTok .plus)) :=
  ⟨claim_C5.1 (opTok .star) .nil .nil (Or.inr (Or.inl rfl)) rfl,
   claim_C5.2 (opTok .plus) (.boolean true) (.boolean false) rfl rfl⟩

/-- C6.  Evaluation of `==`/`!=` always succeeds with a `Boolean` —
no runtime error, no panic — for *any* pair of operand values;
same-type primitives compare structurally; operands with different
variant tags (including Number versus String) give `false` for `==`
and `true` for `!=`. -/
theorem claim_C6 :
    (∀ (tok : Token) (l r : Literal),
       tok.tokenType = .equalEqual ∨ tok.tokenType = .bangEqual →
       ∃ b : Bool, binaryDispatch tok l r = .ok (.boolean b)) ∧
    (∀ (tok : Token) (l r : Literal), tok.tokenType = .equalEqual →
       literalTag l ≠ literalTag r →
       binaryDispatch tok l r = .ok (.boolean false)) ∧
    (∀ (tok : Token) (l r : Literal), tok.tokenType = .bangEqual →
       literalTag l ≠ literalTag r →
       binaryDispatch tok l r = .ok (.boolean true)) ∧
    (∀ (tok : Token) (x y : ℚ), tok.tokenType = .equalEqual →
       binaryDispatch tok (.number x) (.number y) =
         .ok (.boolean (decide (x = y)))) ∧
    (∀ (tok : Token) (x y : ℚ), tok.tokenType = .bangEqual →
       binaryDispatch tok (.number x) (.number y) =
         .ok (.boolean (decide (x ≠ y)))) ∧
    (∀ (tok : Token) (x y : String), tok.tokenType = .equalEqual →
       binaryDispatch tok (.string x) (.string y) =
         .ok (.boolean (decide (x = y)))) ∧
    (∀ (tok : Token) (x y : Bool), tok.tokenType = .equalEqual →
       binaryDispatch tok (.boolean x) (.boolean y) =
         .ok (.boolean (x == y))) ∧
    (∀ (tok : Token), tok.tokenType = .equalEqual →
       binaryDispatch tok .nil .nil = .ok (.boolean true)) := by
  refine ⟨?_, ?_, ?_, ?_, ?_, ?_, ?_, ?_⟩
  · intro tok l r hop
    obtain ⟨tt, lex, lit, ln⟩ := tok
    simp only [Token.tokenType] at hop
    rcases hop with h | h <;> subst h <;> cases l <;> cases r <;>
      exact ⟨_, rfl⟩
  · intro tok l r hop htag
    obtain ⟨tt, lex, lit, ln⟩ := tok
    simp only [Token.tokenType] at hop
    subst hop
    cases l <;> cases r <;>
      first
        | exact absurd rfl htag
        | rfl
  · intro tok l r hop htag
    obtain ⟨tt, lex, lit, ln⟩ := tok
    simp only [Token.tokenType] at hop
    subst hop
    cases l <;> cases r <;>
      first
        | exact absurd rfl htag
        | rfl
  · intro tok x y hop
    obtain ⟨tt, lex, lit, ln⟩ := tok
    simp only [Token.tokenType] at hop
    subst hop
    rfl
  · intro tok x y hop
    obtain ⟨tt, lex, lit, ln⟩ := tok
    simp only [Token.tokenType] at hop
    subst hop
    rfl
  · intro tok x y hop
    obtain ⟨tt, lex, lit, ln⟩ := tok
    simp only [Token.tokenType] at hop
    subst hop
    rfl
  · intro tok x y hop
    obtain ⟨tt, lex, lit, ln⟩ := tok
    simp only [Token.tokenType] at hop
    subst hop
    cases x <;> cases y <;> rfl
  · intro tok hop
    obtain ⟨tt, lex, lit, ln⟩ := tok
    simp only [Token.tokenType] at hop
    subst hop
    rfl

/-- Witness for C6 at a concrete cross-type pair (Number versus
String). -/
theorem claim_C6_witness :
    binaryDispatch (opTok .equalEqual) (.number 1) (.string "a") =
      .ok (.boolean false) ∧
    binaryDispatch (opTok .bangEqual) (.number 1) (.string "a") =
      .ok (.boolean true) :=
  ⟨claim_C6.2.1 (opTok .equalEqual) (.number 1) (.string "a") rfl
      (by decide),
   claim_C6.2.2.1 (opTok .bangEqual) (.number 1) (.string "a") rfl
      (by decide)⟩

/-- C7 counterexample.  Evaluating a `Literal` node with no stored value
does not return `Nil`: `visit_literal_expr` falls into `unreachable!()`
(`interpreter.rs` line 263) and the process aborts. -/
theorem claim_C7_counterexample :
    (evalExpr (fun _ => none) 1 initialState (.literal none)).1 =
      .error .abort ∧
    (Except.error LoxError.abort ≠
      (Except.ok Literal.nil : Except LoxError Literal)) :=
  ⟨rfl, fun h => Except.noConfusion h⟩

/-- C7, amended: a `Literal` node evaluates to its stored value when one
is present (never failing, regardless of state or fuel); when no value
is stored the interpreter aborts via `unreachable!()` instead of
returning `Nil`. -/
theorem claim_C7 :
    ∀ (locals : LocalsMap) (fuel : Nat) (st : InterpState) (v : Literal),
      evalExpr locals (fuel + 1) st (.literal (some v)) = (.ok v, st) ∧
      evalExpr locals (fuel + 1) st (.literal none) = (.error .abort, st) :=
  fun _ _ _ _ => ⟨rfl, rfl⟩

/-- C9.  `term` parses the right operand of `+`/`-` by a recursive call
to `term` itself (`parser.rs` line 518), so `a op1 b op2 c` groups to
the right: the produced tree is `Binary(a, op1, Binary(b, op2, c))`. -/
theorem claim_C9 :
    ∀ (x y z : ℚ) (t1 t2 : TokenType),
      (t1 = .plus ∨ t1 = .minus) → (t2 = .plus ∨ t2 = .minus) →
      (pTerm 64 (mkParser
        [numTok x, opTok t1, numTok y, opTok t2, numTok z, eofTok])).1 =
      .ok (.binary (.literal (some (.number x))) (opTok t1)
            (.binary (.literal (some (.number y))) (opTok t2)
              (.literal (some (.number z))))) := by
  intro x y z t1 t2 h1 h2
  rcases h1 with h | h <;> subst h <;> rcases h2 with h | h <;> subst h <;> rfl

/-- Witness for C9: `8 - 4 - 2` parses as `8 - (4 - 2)`. -/
theorem claim_C9_witness :
    (pTerm 64 (mkParser
      [numTok 8, opTok .minus, numTok 4, opTok .minus, numTok 2, eofTok])).1 =
    .ok (.binary (.literal (some (.number 8))) (opTok .minus)
          (.binary (.literal (some (.number 4))) (opTok .minus)
            (.literal (some (.number 2))))) :=
  claim_C9 8 4 2 .minus .minus (Or.inr rfl) (Or.inr rfl)

/-- C10.  `Scanner::comment` consumes one character unconditionally on
entry (`scanner.rs` line 180) before scanning for delimiters, so the
well-delimited four-character comment `/**/` fails with "Unterminated
block comment." while `/* */` scans to just the end-of-file token. -/
theorem claim_C10 :
    (scanSource "/**/").1 =
      .error (.generalErr 1 "Unterminated block comment.") ∧
    (scanSource "/* */").1 = .ok [Token.newEof 1] :=
  ⟨rfl, rfl⟩

/-- The two assemblies coincide on all clause combinations. -/
theorem forAssemble_eq_forDesugarSpec :
    ∀ (i : Option Stmt) (c inc : Option Expr) (b : Stmt),
      forAssemble i c inc b = forDesugarSpec i c inc b := by
  intro i c inc b
  cases i <;> cases c <;> cases inc <;> rfl

/-- C8.  `for_statement` produces exactly the spec's desugared tree: the
source's assembly (`forAssemble`, `parser.rs` lines 195–241) equals the
spec-worded assembly on every clause combination, the whole production
`pForStatement` is pointwise equal to its spec-worded counterpart
`pForStatementSpec` on every fuel and parser state, and the concrete
statement `for (var i = 0; ; ) print i;` parses to
`Block { Var i 0, While { true, Print i } }`.  (The `Stmt` type — from
`stmt.rs` — has no `For` constructor at all.) -/
theorem claim_C8 :
    (∀ (i : Option Stmt) (c inc : Option Expr) (b : Stmt),
       forAssemble i c inc b = forDesugarSpec i c inc b) ∧
    (∀ (fuel : Nat) (st : ParserState),
       pForStatement fuel st = pForStatementSpec fuel st) ∧
    (pStatement 64 (mkParser c8Tokens)).1 =
      .ok (Stmt.block
        [Stmt.varS (identTok "i") (some (.literal (some (.number 0)))),
         Stmt.whileS (.literal (some (.boolean true)))
           (Stmt.print (.variable (identTok "i")))]) := by
  refine ⟨forAssemble_eq_forDesugarSpec, ?_, rfl⟩
  intro fuel st
  cases fuel with
  | zero => rfl
  | succ n =>
    simp only [pForStatement, pForStatementSpec,
      forAssemble_eq_forDesugarSpec]

set_option maxRecDepth 100000 in
set_option maxHeartbeats 4000000 in
/-- C4 counterexample.  For a call with 256 arguments the parser does
*not* produce the call expression: on seeing the comma after argument
255, `finish_call` sets `had_error` and returns the parse error "Can't
have more than 255 arguments." (`parser.rs` lines 564–570), aborting the
argument list (the error token is `peek()`, the argument token after the
comma). -/
theorem claim_C4_counterexample :
    (pExpression 400 (mkParser c4CallTokens)).1 =
      .error (.parseErr (numTok 1) "Can't have more than 255 arguments.") :=
  rfl

set_option maxRecDepth 100000 in
set_option maxHeartbeats 8000000 in
/-- C4, amended: exceeding 255 arguments is reported but *fatal to the
call expression* — the parser raises a parse error (recovery then
happens at the statement level via `synchronise`) — unlike the
255-parameter limit, which only sets `had_error` and still produces the
function declaration: a declaration with 256 parameters parses to an
`Ok` `Function` statement while flagging the error. -/
theorem claim_C4 :
    (pFunction 400 "function" (mkParser c4FunTokens)).1 =
      .ok (Stmt.function (identTok "f")
        (List.replicate 256 (identTok "p")) []) ∧
    (pFunction 400 "function" (mkParser c4FunTokens)).2.hadError = true :=
  ⟨rfl, rfl⟩
